import Mathlib

/-! Space-Debris-Tracker: the engine's control layer (`src/src/OpenGLEngine.cpp`)

A shallow embedding of the parts of `OpenGLEngine` that decide simulation time,
the date edit ('Go'), the detection pass ('Run'), the risk table, the main loop
with the remaining widgets of `frame`, and the camera callbacks.

Conventions of the embedding

* C++ `double` and `float` values are exact rationals (`ℚ`); the narrowing
  `double → GLfloat` is an explicit function of the collaborators.
* `int` values are `Int`; `std::stoi` checks the `int` range explicitly.  The
  counters `simSpeed` and `numRisky` and the loop indices are taken to stay inside
  `int` (fewer than 2^31 - 1 presses of the right arrow, lists below 2^31 / 3 records).
* A pointer that is either `nullptr` or an owned buffer is an `Option`.
* Functions of the repository that `OpenGLEngine.cpp` calls but does not define
  (`TLEReader::propagate`, `find_local_optimum`, `Octree`, `dateToDouble`,
  `doubleToDate`) are fields of `Collaborators`; every call the engine makes to
  `propagate` or to a detector is recorded in a list of `Call`s.
-/

namespace SpaceDebrisTracker

/-! ## Data model -/

/-- The `Datetime` record exchanged with `dateToDouble` / `doubleToDate`. -/
structure Datetime where
  year : Int
  month : Int
  day : Int
  hours : Int
  minutes : Int
  seconds : Int
  deriving DecidableEq, Repr

/-- The fields of `SpaceDebris` that the engine reads. -/
structure SpaceDebris where
  id : Int
  riskyOther : Int
  riskDistance : ℚ
  x : ℚ
  y : ℚ
  z : ℚ
  deriving DecidableEq, Repr

/-- C++ exceptions that can cross the 'Go' handler's `try` block. -/
inductive Exn where
  | invalid_argument
  | out_of_range
  | other
  deriving DecidableEq, Repr

/-- A call from the engine to one of its collaborators. -/
inductive Call where
  | propagate (epoch : ℚ) (numSats : Int) (fill : Bool) (debris : List SpaceDebris)
  | find_local_optimum (debris : List SpaceDebris) (tolerance : ℚ) (iterations : Int)
  | find_risky_debris (debris : List SpaceDebris) (tolerance : ℚ) (out : List SpaceDebris)
  deriving DecidableEq, Repr

/-- The functions `OpenGLEngine.cpp` calls without defining them.

* `propagate e numSats fill debris` is `tle.propagate(e, points, numSats, fill, debris)`:
  it returns the new contents of the `points` buffer and of the `debris` vector;
  `points` is an output only (spec §4.2: positions depend on epoch and catalog).
* `find_local_optimum debris tol it` is the iterative scanner's returned list.
* `find_risky_debris debris tol out` is `Octree(debris, tol).find_risky_debris(out)`:
  the contents of the vector `out` after the call.
* `dateToDouble` may throw; `doubleToDate` is total.
* `narrow` is the conversion `double → GLfloat`. -/
structure Collaborators where
  propagate : ℚ → Int → Bool → List SpaceDebris → List ℚ × List SpaceDebris
  find_local_optimum : List SpaceDebris → ℚ → Int → List SpaceDebris
  find_risky_debris : List SpaceDebris → ℚ → List SpaceDebris → List SpaceDebris
  dateToDouble : Datetime → Except Exn ℚ
  doubleToDate : ℚ → Datetime
  narrow : ℚ → ℚ

/-- The members of `OpenGLEngine` that the control layer reads or writes. -/
structure Engine where
  runTime : ℚ
  totalTime : ℚ
  epoch : ℚ
  numSats : Int
  simSpeed : Int
  isPaused : Bool
  isValid : Bool
  newTime : Datetime
  day : String
  month : String
  year : String
  hours : String
  minutes : String
  seconds : String
  points : List ℚ
  debris : List SpaceDebris
  riskList : List SpaceDebris
  numRisky : Int
  riskyPoints : Option (List ℚ)
  selectedPoint : Option (List ℚ)
  algorithmSelection : Int
  tolerance : ℚ
  iterations : Int
  deriving DecidableEq, Repr

/-- The expression `epoch + totalTime / (86400.0)` of `preFrame`, `frame` and 'Run'. -/
def currentEpoch (s : Engine) : ℚ := s.epoch + s.totalTime / 86400

/-! ## `std::stoi` -/

/-- The characters `isspace` accepts in the C locale. -/
def isSpaceC (c : Char) : Bool :=
  c = ' ' || c = '\t' || c = '\n' || c = '\x0b' || c = '\x0c' || c = '\r'

/-- Value of the longest prefix of decimal digits, and how many digits were read. -/
def readDigits : List Char → Nat → Nat → Nat × Nat
  | [], acc, n => (acc, n)
  | c :: cs, acc, n =>
    if c.isDigit then readDigits cs (acc * 10 + (c.toNat - 48)) (n + 1) else (acc, n)

/-- The conversion `std::stoi(str)`: leading white space is skipped, one sign is
accepted, then decimal digits are read; no digit raises `invalid_argument`, a
value outside `int` raises `out_of_range`; trailing characters are ignored. -/
def stoi (str : String) : Except Exn Int :=
  let cs := str.toList.dropWhile isSpaceC
  let (neg, ds) :=
    match cs with
    | '-' :: r => (true, r)
    | '+' :: r => (false, r)
    | r => (false, r)
  let (v, n) := readDigits ds 0 0
  if n = 0 then .error .invalid_argument
  else
    let i : Int := if neg then -(v : Int) else (v : Int)
    if i < -2147483648 ∨ 2147483647 < i then .error .out_of_range else .ok i

/-! ## The 'Go' handler -/

/-- Outcome of a handler: it returns with a state and the collaborator calls it
made, or an exception leaves it uncaught. -/
inductive Outcome where
  | returned (s : Engine) (calls : List Call)
  | uncaught (e : Exn) (s : Engine) (calls : List Call)
  deriving DecidableEq, Repr

/-- The body of the `try` block of the 'Go' handler.  An exception carries the
state reached when it was thrown: assignments made before the throw persist. -/
def goTry (env : Collaborators) (s : Engine) : Except (Exn × Engine) (Engine × List Call) :=
  match stoi s.day with
  | .error e => .error (e, s)
  | .ok d =>
  let s := { s with newTime := { s.newTime with day := d } }
  match stoi s.month with
  | .error e => .error (e, s)
  | .ok mo =>
  let s := { s with newTime := { s.newTime with month := mo } }
  match stoi s.year with
  | .error e => .error (e, s)
  | .ok y =>
  let s := { s with newTime := { s.newTime with year := y } }
  match stoi s.hours with
  | .error e => .error (e, s)
  | .ok h =>
  let s := { s with newTime := { s.newTime with hours := h } }
  match stoi s.minutes with
  | .error e => .error (e, s)
  | .ok mi =>
  let s := { s with newTime := { s.newTime with minutes := mi } }
  match stoi s.seconds with
  | .error e => .error (e, s)
  | .ok sec =>
  let s := { s with newTime := { s.newTime with seconds := sec } }
  let s := { s with totalTime := 0 }
  match env.dateToDouble s.newTime with
  | .error e => .error (e, s)
  | .ok ep =>
  let s := { s with epoch := ep }
  let r := env.propagate s.epoch s.numSats false s.debris
  .ok ({ s with points := r.1, debris := r.2 },
       [Call.propagate s.epoch s.numSats false s.debris])

/-- The handler `if (ImGui::Button("Go")) { ... }` of `OpenGLEngine::frame`:
`isValid = true`, the `try` block, and `catch (std::invalid_argument)`. -/
def goHandler (env : Collaborators) (s : Engine) : Outcome :=
  let s := { s with isValid := true }
  match goTry env s with
  | .ok (s1, calls) => .returned s1 calls
  | .error (.invalid_argument, s1) => .returned { s1 with isValid := false } []
  | .error (e, s1) => .uncaught e s1 []

/-! ## Epoch clock (`dateToDouble`, `doubleToDate`) -/

/-- Modelled from the spec: Gregorian leap years (§4.1). -/
def isLeapYear (y : Int) : Bool :=
  y % 4 = 0 && (y % 100 != 0 || y % 400 = 0)

/-- Modelled from the spec: variable month lengths (§4.1). -/
def daysInMonth (y m : Int) : Int :=
  if m = 2 then (if isLeapYear y then 29 else 28)
  else if m = 4 ∨ m = 6 ∨ m = 9 ∨ m = 11 then 30
  else 31

/-- Modelled from the spec: the civil ranges of §4.1, outside of which
`fromCalendar` fails: month in [1,12], day in [1, days-in-month], hour in
[0,23], minute and second in [0,59]. -/
def validDatetime (D : Datetime) : Bool :=
  decide (1 ≤ D.month) && decide (D.month ≤ 12) &&
  decide (1 ≤ D.day) && decide (D.day ≤ daysInMonth D.year D.month) &&
  decide (0 ≤ D.hours) && decide (D.hours ≤ 23) &&
  decide (0 ≤ D.minutes) && decide (D.minutes ≤ 59) &&
  decide (0 ≤ D.seconds) && decide (D.seconds ≤ 59)

/-- Days from 0001-01-01 to the first of January of year `y`. -/
def daysBeforeYear (y : Int) : Int :=
  365 * (y - 1) + (y - 1) / 4 - (y - 1) / 100 + (y - 1) / 400

/-- Days from the first of January to the first of month `m`, in year `y`. -/
def daysBeforeMonth (y m : Int) : Int :=
  (if m ≤ 1 then 0 else if m = 2 then 31 else if m = 3 then 59 else if m = 4 then 90
   else if m = 5 then 120 else if m = 6 then 151 else if m = 7 then 181
   else if m = 8 then 212 else if m = 9 then 243 else if m = 10 then 273
   else if m = 11 then 304 else 334)
  + (if isLeapYear y ∧ 2 < m then 1 else 0)

/-- Days from 0001-01-01 to the civil date `y-m-d`. -/
def dayNumber (y m d : Int) : Int :=
  daysBeforeYear y + daysBeforeMonth y m + (d - 1)

/-- The civil date `(year, month, day)` that lies `z` days after 0001-01-01. -/
def civilFromDayNumber (z : Int) : Int × Int × Int :=
  let z := z + 306
  let era := z / 146097
  let doe := z - era * 146097
  let yoe := (doe - doe / 1460 + doe / 36524 - doe / 146096) / 365
  let doy := doe - (365 * yoe + yoe / 4 - yoe / 100)
  let mp := (5 * doy + 2) / 153
  let d := doy - (153 * mp + 2) / 5 + 1
  let m := if mp < 10 then mp + 3 else mp - 9
  let y := yoe + era * 400 + (if m ≤ 2 then 1 else 0)
  (y, m, d)

/-- The fixed reference instant of the epoch: 1949-12-31 00:00:00, so that
1950-01-01 00:00:00 is day 1 (the `ds50` count named in `DllUtils.h`). -/
def referenceDay : Int := dayNumber 1949 12 31

/-- Modelled from the spec: `dateToDouble` (`fromCalendar`, §4.1) is not in
`src/`.  Fractional days since the reference instant; it fails with
`InvalidDateError` when a field is outside its civil range.  The error is the
one the caller recovers from (§7), which in `frame` is `std::invalid_argument`. -/
def dateToDouble (D : Datetime) : Except Exn ℚ :=
  if validDatetime D then
    .ok (((dayNumber D.year D.month D.day - referenceDay : Int) : ℚ)
          + ((D.hours * 3600 + D.minutes * 60 + D.seconds : Int) : ℚ) / 86400)
  else .error .invalid_argument

/-- Modelled from the spec: `doubleToDate` (`toCalendar`, §4.1) is not in
`src/`.  The calendar datetime of an epoch, to the second, without leap seconds. -/
def doubleToDate (e : ℚ) : Datetime :=
  let z : Int := ⌊e⌋
  let sod : Int := ⌊(e - (z : ℚ)) * 86400⌋
  let c := civilFromDayNumber (z + referenceDay)
  { year := c.1, month := c.2.1, day := c.2.2,
    hours := sod / 3600, minutes := sod % 3600 / 60, seconds := sod % 60 }

/-! ## Per-tick propagation and the date display -/

/-- The method `OpenGLEngine::preFrame`. -/
def preFrame (env : Collaborators) (s : Engine) : Engine × List Call :=
  if !s.isPaused then
    let r := env.propagate (s.epoch + s.totalTime / 86400) s.numSats false s.debris
    ({ s with points := r.1, debris := r.2 },
     [Call.propagate (s.epoch + s.totalTime / 86400) s.numSats false s.debris])
  else (s, [])

/-- The local `tdate` of `OpenGLEngine::frame`, from which the date line is printed. -/
def tdate (env : Collaborators) (s : Engine) : Datetime :=
  env.doubleToDate (s.epoch + s.totalTime / 86400)

/-! ## The 'Run' handler -/

/-- The loop that copies the coordinates of the risk list into the buffer
`new GLfloat[riskList.size() * 3]` (its cells start as 0 here). -/
def fillRiskyPoints (narrow : ℚ → ℚ) (riskList : List SpaceDebris) : List ℚ :=
  (List.range riskList.length).foldl
    (fun buf i =>
      match riskList[i]? with
      | some r =>
        ((buf.set (i * 3) (narrow r.x)).set (i * 3 + 1) (narrow r.y)).set (i * 3 + 2) (narrow r.z)
      | none => buf)
    (List.replicate (riskList.length * 3) 0)

/-- The handler `if (ImGui::Button("Run")) { ... }` of `OpenGLEngine::frame`.
In both branches `delete[] riskyPoints` frees the buffer of the previous pass and
the pointer is assigned a new buffer before the branch ends. -/
def runHandler (env : Collaborators) (s : Engine) : Engine × List Call :=
  let s := { s with isPaused := true }
  let s := { s with debris := [] }
  let c1 := Call.propagate (s.epoch + s.totalTime / 86400) s.numSats true s.debris
  let r := env.propagate (s.epoch + s.totalTime / 86400) s.numSats true s.debris
  let s := { s with points := r.1, debris := r.2 }
  if s.algorithmSelection = 1 then
    let s := { s with riskList := [] }
    let c2 := Call.find_local_optimum s.debris s.tolerance s.iterations
    let s := { s with riskList := env.find_local_optimum s.debris s.tolerance s.iterations }
    let s := { s with numRisky := s.riskList.length }
    let s := { s with riskyPoints := some (fillRiskyPoints env.narrow s.riskList) }
    (s, [c1, c2])
  else
    let s := { s with riskList := [] }
    let c2 := Call.find_risky_debris s.debris s.tolerance s.riskList
    let s := { s with riskList := env.find_risky_debris s.debris s.tolerance s.riskList }
    let s := { s with numRisky := s.riskList.length }
    let s := { s with riskyPoints := some (fillRiskyPoints env.narrow s.riskList) }
    (s, [c1, c2])

/-! ## Sorting the risk table -/

/-- Modelled from the spec: the comparators of `SpaceDebris.h` are not in
`src/`; each is the strict order on its key. -/
def compareDebrisDistanceLess (a b : SpaceDebris) : Bool := decide (a.riskDistance < b.riskDistance)

/-- Modelled from the spec: strict `>` on the distance. -/
def compareDebrisDistanceGreater (a b : SpaceDebris) : Bool :=
  decide (a.riskDistance > b.riskDistance)

/-- Modelled from the spec: strict `<` on the catalog id. -/
def compareDebrisIdLess (a b : SpaceDebris) : Bool := decide (a.id < b.id)

/-- Modelled from the spec: strict `>` on the catalog id. -/
def compareDebrisIdGreater (a b : SpaceDebris) : Bool := decide (a.id > b.id)

/-- The call `std::sort(first, last, comp)`: the elements are rearranged so that
no element is `comp`-before one that precedes it. -/
def stdSort (comp : SpaceDebris → SpaceDebris → Bool) (l : List SpaceDebris) : List SpaceDebris :=
  l.insertionSort (fun a b => comp b a = false)

/-- What `frame` reads of `ImGuiTableSortSpecs`: the dirty flag and the first
column specification (`Specs->ColumnIndex`, `Specs->SortDirection`, where ImGui
gives 1 for ascending and 2 for descending). -/
structure SortSpecs where
  SpecsDirty : Bool
  ColumnIndex : Int
  SortDirection : Int
  deriving DecidableEq, Repr

/-- The sort step of `frame`: `specs` is the result of `ImGui::TableGetSortSpecs()`
(`none` for a null pointer). -/
def sortRiskTable (s : Engine) (specs : Option SortSpecs) : Engine × Option SortSpecs :=
  match specs with
  | none => (s, none)
  | some sp =>
    if sp.SpecsDirty then
      let s :=
        if sp.ColumnIndex = 1 ∧ sp.SortDirection = 2 then
          { s with riskList := stdSort compareDebrisDistanceLess s.riskList }
        else if sp.ColumnIndex = 1 ∧ sp.SortDirection = 1 then
          { s with riskList := stdSort compareDebrisDistanceGreater s.riskList }
        else if sp.ColumnIndex = 0 ∧ sp.SortDirection = 2 then
          { s with riskList := stdSort compareDebrisIdLess s.riskList }
        else if sp.ColumnIndex = 0 ∧ sp.SortDirection = 1 then
          { s with riskList := stdSort compareDebrisIdGreater s.riskList }
        else s
      (s, some { sp with SpecsDirty := false })
    else (s, some sp)

/-! ## Auxiliary definitions of the statements -/

/-- The exception, if any, raised by the six `stoi` conversions of the 'Go'
handler: they run in the order day, month, year, hours, minutes, seconds, and
the first one that fails ends them. -/
def goParseError (s : Engine) : Option Exn :=
  [stoi s.day, stoi s.month, stoi s.year, stoi s.hours, stoi s.minutes,
    stoi s.seconds].findSome? (fun r => match r with
      | .error e => some e
      | .ok _ => none)

/-- The contents of `debris` that the 'Run' handler hands to the detector: the
vector is cleared and then filled by `propagate` at the current epoch. -/
def runDebris (env : Collaborators) (s : Engine) : List SpaceDebris :=
  (env.propagate (currentEpoch s) s.numSats true []).2

/-! ## Concrete instances for evaluation -/

/-- A small catalog propagator for examples: one satellite on the x axis at a
distance given by the epoch; with `fill` the full state is appended to `debris`. -/
def examplePropagate (e : ℚ) (_numSats : Int) (fill : Bool) (debris : List SpaceDebris) :
    List ℚ × List SpaceDebris :=
  ([e, 0, 0], if fill then debris ++ [⟨7, -1, 0, e, 0, 0⟩, ⟨9, -1, 0, e, 0, 1 / 1000⟩] else debris)

/-- A detector for examples: every state is reported, paired with itself. -/
def exampleDetector (debris : List SpaceDebris) (_tol : ℚ) : List SpaceDebris :=
  debris.map (fun d => { d with riskyOther := d.id })

/-- Collaborators for examples: the epoch clock modelled from the spec, and the
example propagator and detector. -/
def exampleCollaborators : Collaborators where
  propagate := examplePropagate
  find_local_optimum := fun d tol _ => exampleDetector d tol
  find_risky_debris := fun d tol out => out ++ exampleDetector d tol
  dateToDouble := dateToDouble
  doubleToDate := doubleToDate
  narrow := id

/-- An engine state for examples: one simulated day has elapsed since the epoch
2024-01-01 00:00:00, and a risk list of a previous pass is on display. -/
def exampleEngine : Engine where
  runTime := 10
  totalTime := 86400
  epoch := 27029
  numSats := 1
  simSpeed := 0
  isPaused := true
  isValid := true
  newTime := ⟨2024, 1, 1, 0, 0, 0⟩
  day := "1"
  month := "1"
  year := "2024"
  hours := "0"
  minutes := "0"
  seconds := "0"
  points := [0, 0, 0]
  debris := []
  riskList := [⟨3, 4, 1 / 100, 1, 2, 3⟩, ⟨4, 3, 1 / 100, 1, 2, 3⟩]
  numRisky := 2
  riskyPoints := some [1, 2, 3, 1, 2, 3]
  selectedPoint := none
  algorithmSelection := 0
  tolerance := 1 / 1000
  iterations := 1


/-! ## The main loop, the remaining handlers of `frame`, and start-up -/

/-- The handler of `ImGui::ArrowButton("##left", ImGuiDir_Left)`. -/
def leftArrowHandler (s : Engine) : Engine :=
  if s.simSpeed > -1 then { s with simSpeed := s.simSpeed - 1 } else s

/-- The handler of `ImGui::ArrowButton("##right", ImGuiDir_Right)`. -/
def rightArrowHandler (s : Engine) : Engine :=
  { s with simSpeed := s.simSpeed + 1 }

/-- The handler of `ImGui::Button("Play/Pause")`. -/
def playPauseHandler (s : Engine) : Engine :=
  let s := { s with isPaused := !s.isPaused }
  if !s.isPaused then
    let s := { s with riskList := [] }
    { s with riskyPoints := none, selectedPoint := none }
  else s

/-- The bound of the row loop of the risk table:
`riskList.size() > 10 ? 10 : riskList.size()`. -/
def rowBound (riskList : List SpaceDebris) : Nat :=
  if riskList.length > 10 then 10 else riskList.length

/-- The handler of the button 'Select' of row `row`; the button exists for the
rows the loop renders, and `riskList.at(row)` is read for its coordinates. -/
def selectHandler (env : Collaborators) (s : Engine) (row : Nat) : Engine :=
  if row < rowBound s.riskList then
    match s.riskList[row]? with
    | some r =>
      { s with selectedPoint := some [env.narrow r.x, env.narrow r.y, env.narrow r.z] }
    | none => s
  else s

/-- One cell row of the risk table: the row index passed to `riskList.at`, and
the id, the nearest body and the distance that are printed. -/
structure TableRow where
  row : Nat
  id : Int
  riskyOther : Int
  riskDistance : ℚ
  deriving DecidableEq, Repr

/-- The accesses `riskList.at(row)` for the rows in `rows`, in order; `at`
raises `out_of_range` for an index that is not below the size. -/
def renderRows (riskList : List SpaceDebris) : List Nat → Except Exn (List TableRow)
  | [] => .ok []
  | row :: rest =>
    match riskList[row]? with
    | none => .error .out_of_range
    | some r =>
      match renderRows riskList rest with
      | .error e => .error e
      | .ok rs => .ok (⟨row, r.id, r.riskyOther, r.riskDistance⟩ :: rs)

/-- The row loop of the risk table in `frame`:
`for (int row = 0; row < (riskList.size() > 10 ? 10 : riskList.size()); row++)`. -/
def renderRiskTable (riskList : List SpaceDebris) : Except Exn (List TableRow) :=
  renderRows riskList (List.range (rowBound riskList))

/-- What the user does to the widgets of `frame` during one frame. -/
inductive UiAction where
  | idle
  | editDate (day month year hours minutes seconds : String)
  | go
  | leftArrow
  | playPause
  | rightArrow
  | selectOctree
  | selectIterative
  | setIterations (n : Int)
  | setTolerance (t : ℚ)
  | run
  | sort (specs : SortSpecs)
  | select (row : Nat)
  deriving DecidableEq, Repr

/-- The widgets of `OpenGLEngine::frame` under one user action. -/
def frame (env : Collaborators) (s : Engine) : UiAction → Outcome
  | .idle => .returned s []
  | .editDate d mo y h mi sec =>
    .returned { s with day := d, month := mo, year := y, hours := h, minutes := mi,
                       seconds := sec } []
  | .go => goHandler env s
  | .leftArrow => .returned (leftArrowHandler s) []
  | .playPause => .returned (playPauseHandler s) []
  | .rightArrow => .returned (rightArrowHandler s) []
  | .selectOctree => .returned { s with algorithmSelection := 0 } []
  | .selectIterative => .returned { s with algorithmSelection := 1 } []
  | .setIterations n => .returned { s with iterations := n } []
  | .setTolerance t => .returned { s with tolerance := t } []
  | .run => .returned (runHandler env s).1 (runHandler env s).2
  | .sort specs => .returned (sortRiskTable s (some specs)).1 []
  | .select row => .returned (selectHandler env s row) []

/-- The time calculations at the head of the loop of `mainEventLoop`, for the
reading `currTime` of `glfwGetTime()`: the new state and `frameTime`. -/
def timeStep (currTime : ℚ) (s : Engine) : Engine × ℚ :=
  let frameTime := currTime - s.runTime
  let s := { s with runTime := currTime }
  if !s.isPaused then
    ({ s with totalTime := s.totalTime + frameTime * (10 : ℚ) ^ s.simSpeed }, frameTime)
  else (s, frameTime)

/-- One iteration of the loop of `mainEventLoop`: the time calculations,
`preFrame`, `frame`; `postFrame` only updates its own frame counters. -/
def loopIteration (env : Collaborators) (currTime : ℚ) (a : UiAction) (s : Engine) : Outcome :=
  let s1 := (timeStep currTime s).1
  let p := preFrame env s1
  match frame env p.1 a with
  | .returned s2 calls => .returned s2 (p.2 ++ calls)
  | .uncaught e s2 calls => .uncaught e s2 (p.2 ++ calls)

/-- The assignments of `OpenGLEngine::initSharedMem` to the members of `Engine`. -/
def initSharedMem (s : Engine) : Engine :=
  { s with runTime := 0, totalTime := 0, numSats := 0, simSpeed := 0, isPaused := true,
           isValid := true, riskyPoints := none, selectedPoint := none,
           algorithmSelection := 0 }

/-- What the constructor leaves: `tolerance = 0.001f`, `iterations = 1`,
`selectedPoint = nullptr`, and the vector `riskList` default-constructed, empty. -/
def Constructed (s : Engine) : Prop :=
  s.riskList = [] ∧ s.selectedPoint = none ∧ s.tolerance = 1 / 1000 ∧ s.iterations = 1

instance : DecidablePred Constructed := fun s => by
  unfold Constructed
  infer_instance

/-- The start-up of `OpenGLEngine::init` on the members of `Engine`:
`initSharedMem()`, then `points = tle.ReadFiles(numSats, epoch, debris)` with the
values the reader returns, then `newTime = doubleToDate(epoch)`. -/
def init (env : Collaborators) (s0 : Engine) (points : List ℚ) (numSats : Int) (epoch : ℚ)
    (debris : List SpaceDebris) : Engine :=
  let s := initSharedMem s0
  let s := { s with points := points, numSats := numSats, epoch := epoch, debris := debris }
  { s with newTime := env.doubleToDate s.epoch }

/-- The states the engine can be in: the one `init` leaves, and those reached
from it by iterations of the main loop, each with one user action. -/
inductive Reachable (env : Collaborators) : Engine → Prop where
  | start (s0 : Engine) (points : List ℚ) (numSats : Int) (epoch : ℚ)
      (debris : List SpaceDebris) (h : Constructed s0) :
      Reachable env (init env s0 points numSats epoch debris)
  | step (s s1 : Engine) (currTime : ℚ) (a : UiAction) (calls : List Call)
      (hs : Reachable env s) (h : loopIteration env currTime a s = Outcome.returned s1 calls) :
      Reachable env s1

/-! ## Camera callbacks -/

/-- The camera and mouse members of `OpenGLEngine`. -/
structure Camera where
  cameraAngleX : ℚ
  cameraAngleY : ℚ
  cameraDistance : ℚ
  mouseX : ℚ
  mouseY : ℚ
  mouseLeftDown : Bool
  mouseRightDown : Bool
  deriving DecidableEq, Repr

/-- The method `OpenGLEngine::cursorPosCallback`. -/
def cursorPosCallback (c : Camera) (x y : ℚ) : Camera :=
  let c :=
    if c.mouseLeftDown then
      let c := { c with cameraAngleY := c.cameraAngleY + (x - c.mouseX) * (1 / 10) }
      let c := { c with cameraAngleX := c.cameraAngleX + (y - c.mouseY) * (1 / 10) }
      let c := if c.cameraAngleX > 90 then { c with cameraAngleX := 90 } else c
      let c := if c.cameraAngleX < -90 then { c with cameraAngleX := -90 } else c
      { c with mouseX := x, mouseY := y }
    else c
  if c.mouseRightDown then
    let c := { c with cameraDistance := c.cameraDistance - (y - c.mouseY) * (1 / 10) }
    let c := if c.cameraDistance < 1 then { c with cameraDistance := 1 } else c
    { c with mouseY := y }
  else c

/-- The method `OpenGLEngine::scrollCallback`. -/
def scrollCallback (c : Camera) (_xoffset yoffset : ℚ) : Camera :=
  if yoffset ≠ 0 then
    let c := { c with cameraDistance := c.cameraDistance - yoffset * (1 / 10) }
    if c.cameraDistance < 1 then { c with cameraDistance := 1 } else c
  else c

/-- The engine as the constructor leaves it, for examples. -/
def constructedEngine : Engine where
  runTime := 0
  totalTime := 0
  epoch := 0
  numSats := 0
  simSpeed := 0
  isPaused := false
  isValid := false
  newTime := ⟨0, 0, 0, 0, 0, 0⟩
  day := ""
  month := ""
  year := ""
  hours := ""
  minutes := ""
  seconds := ""
  points := []
  debris := []
  riskList := []
  numRisky := 0
  riskyPoints := none
  selectedPoint := none
  algorithmSelection := 0
  tolerance := 1 / 1000
  iterations := 1

/-- The state a handler or a loop iteration ends in. -/
def Outcome.state : Outcome → Engine
  | .returned s _ => s
  | .uncaught _ s _ => s

/-- The engine after `init` for examples: the catalog epoch is 27029
(2024-01-01 00:00:00). -/
def startEngine : Engine :=
  init exampleCollaborators constructedEngine [27029, 0, 0] 1 27029 []

/-- Example: 'Play/Pause' is pressed in the first frame after start-up. -/
def runningEngine : Engine :=
  (loopIteration exampleCollaborators 1 UiAction.playPause startEngine).state

/-- Example: the left arrow is pressed in the first frame after start-up. -/
def slowEngine : Engine :=
  (loopIteration exampleCollaborators 1 UiAction.leftArrow startEngine).state

/-- Example: 'Run' is pressed in the first frame after start-up. -/
def reportEngine : Engine :=
  (loopIteration exampleCollaborators 1 UiAction.run startEngine).state

/-- Example: after 'Run', the date 2 January 2024 is typed in the second frame. -/
def editedEngine : Engine :=
  (loopIteration exampleCollaborators 2 (UiAction.editDate "2" "1" "2024" "0" "0" "0")
    reportEngine).state

/-- Example: after 'Run' and the edit, 'Go' is pressed in the third frame. -/
def staleEngine : Engine :=
  (loopIteration exampleCollaborators 3 UiAction.go editedEngine).state

/-! ## Round trip of the calendar conversion -/

/-- The value read from the digits of a string is bounded by its length. -/
theorem readDigits_lt (cs : List Char) (acc n : Nat) :
    (readDigits cs acc n).1 < (acc + 1) * 10 ^ cs.length := by
  induction cs generalizing acc n with
  | nil => simp [readDigits]
  | cons c cs ih =>
    unfold readDigits
    split
    · rename_i hc
      have h9 : c.toNat - 48 ≤ 9 := by
        simp only [Char.isDigit, Bool.and_eq_true, decide_eq_true_eq] at hc
        have h2 := hc.2
        have : c.toNat ≤ 57 := h2
        omega
      have := ih (acc * 10 + (c.toNat - 48)) (n + 1)
      calc (readDigits cs (acc * 10 + (c.toNat - 48)) (n + 1)).1
          < (acc * 10 + (c.toNat - 48) + 1) * 10 ^ cs.length := this
        _ ≤ ((acc + 1) * 10) * 10 ^ cs.length := Nat.mul_le_mul_right _ (by omega)
        _ = (acc + 1) * 10 ^ (c :: cs).length := by
          rw [List.length_cons, pow_succ]; ring
    · simp only
      have : 0 < 10 ^ (c :: cs).length := by positivity
      nlinarith

/-- No string of at most nine characters makes `stoi` raise `out_of_range`. -/
theorem stoi_short (str : String) (h : str.length ≤ 9) :
    stoi str ≠ Except.error Exn.out_of_range := by
  have hlen : (str.toList.dropWhile isSpaceC).length ≤ 9 := by
    have := (List.dropWhile_sublist isSpaceC (l := str.toList)).length_le
    simp only [String.length] at h
    exact le_trans this h
  have hsign : ∀ cs : List Char,
      (match cs with
        | '-' :: r => (true, r)
        | '+' :: r => (false, r)
        | r => (false, r)).2.length ≤ cs.length := by
    intro cs
    split <;> simp
  have hds := le_trans (hsign (str.toList.dropWhile isSpaceC)) hlen
  unfold stoi
  simp only
  generalize (match str.toList.dropWhile isSpaceC with
    | '-' :: r => (true, r)
    | '+' :: r => (false, r)
    | r => (false, r)) = p at hds ⊢
  have hb := readDigits_lt p.2 0 0
  have hp : 10 ^ p.2.length ≤ 10 ^ 9 := Nat.pow_le_pow_right (by norm_num) hds
  have hv : (readDigits p.2 0 0).1 < 1000000000 := by
    have : (0 + 1) * 10 ^ p.2.length ≤ 1000000000 := by simpa using hp
    omega
  split
  · simp
  · by_cases hneg : p.1 = true <;> simp [hneg] <;> omega

/-- The conversion `stoi` raises no exception besides `invalid_argument` and
`out_of_range`. -/
theorem stoi_not_other (str : String) : stoi str ≠ Except.error Exn.other := by
  unfold stoi
  simp only
  generalize (match str.toList.dropWhile isSpaceC with
    | '-' :: r => (true, r)
    | '+' :: r => (false, r)
    | r => (false, r)) = p
  split
  · simp
  · split <;> split <;> simp

/-- With input buffers of at most nine characters (the widths given to
`ImGui::InputText` leave at most four), a field that raises `invalid_argument`
makes the six conversions end with `invalid_argument`. -/
theorem goParseError_of_invalid_field (s : Engine)
    (hlen : s.day.length ≤ 9 ∧ s.month.length ≤ 9 ∧ s.year.length ≤ 9 ∧
      s.hours.length ≤ 9 ∧ s.minutes.length ≤ 9 ∧ s.seconds.length ≤ 9)
    (h : Except.error Exn.invalid_argument ∈
      [stoi s.day, stoi s.month, stoi s.year, stoi s.hours, stoi s.minutes, stoi s.seconds]) :
    goParseError s = some Exn.invalid_argument := by
  obtain ⟨l1, l2, l3, l4, l5, l6⟩ := hlen
  have k : ∀ str : String, str.length ≤ 9 →
      (∃ v, stoi str = Except.ok v) ∨ stoi str = Except.error Exn.invalid_argument := by
    intro str hl
    have := stoi_short str hl
    cases hs : stoi str with
    | ok v => exact Or.inl ⟨v, rfl⟩
    | error e =>
      right
      cases e with
      | invalid_argument => rfl
      | out_of_range => exact absurd hs this
      | other => exact absurd hs (stoi_not_other str)
  unfold goParseError
  simp only [List.findSome?]
  simp only [List.mem_cons, List.mem_singleton, List.not_mem_nil, or_false] at h
  rcases k s.day l1 with ⟨v1, h1⟩ | h1
  swap
  · rw [h1]
  rw [h1] at h ⊢
  rcases k s.month l2 with ⟨v2, h2⟩ | h2
  swap
  · rw [h2]
  rw [h2] at h ⊢
  rcases k s.year l3 with ⟨v3, h3⟩ | h3
  swap
  · rw [h3]
  rw [h3] at h ⊢
  rcases k s.hours l4 with ⟨v4, h4⟩ | h4
  swap
  · rw [h4]
  rw [h4] at h ⊢
  rcases k s.minutes l5 with ⟨v5, h5⟩ | h5
  swap
  · rw [h5]
  rw [h5] at h ⊢
  rcases k s.seconds l6 with ⟨v6, h6⟩ | h6
  swap
  · rw [h6]
  rw [h6] at h ⊢
  simp at h

/-! ## The 'Go' handler: rejected and accepted edits -/

/-- Claim C2.  When one of the six integer conversions of a 'Go' edit raises
`invalid_argument`, the handler returns with `isValid = false`, with `epoch` and
`totalTime` unchanged, and without any call to `propagate`. -/
theorem go_parse_failure_rejected (env : Collaborators) (s : Engine)
    (h : goParseError s = some Exn.invalid_argument) :
    ∃ s1, goHandler env s = Outcome.returned s1 [] ∧ s1.isValid = false ∧
      s1.epoch = s.epoch ∧ s1.totalTime = s.totalTime := by
  unfold goParseError at h
  unfold goHandler goTry
  simp only [List.findSome?] at h
  cases h1 : stoi s.day with
  | error e => rw [h1] at h; simp only [Option.some.injEq] at h; subst h; simp [h1]
  | ok v1 =>
  cases h2 : stoi s.month with
  | error e => rw [h1, h2] at h; simp only [Option.some.injEq] at h; subst h; simp [h1, h2]
  | ok v2 =>
  cases h3 : stoi s.year with
  | error e =>
    rw [h1, h2, h3] at h; simp only [Option.some.injEq] at h; subst h; simp [h1, h2, h3]
  | ok v3 =>
  cases h4 : stoi s.hours with
  | error e =>
    rw [h1, h2, h3, h4] at h; simp only [Option.some.injEq] at h; subst h
    simp [h1, h2, h3, h4]
  | ok v4 =>
  cases h5 : stoi s.minutes with
  | error e =>
    rw [h1, h2, h3, h4, h5] at h; simp only [Option.some.injEq] at h; subst h
    simp [h1, h2, h3, h4, h5]
  | ok v5 =>
  cases h6 : stoi s.seconds with
  | error e =>
    rw [h1, h2, h3, h4, h5, h6] at h; simp only [Option.some.injEq] at h; subst h
    simp [h1, h2, h3, h4, h5, h6]
  | ok v6 =>
    rw [h1, h2, h3, h4, h5, h6] at h
    simp at h

/-- Claim C3.  When the six fields parse and `dateToDouble` converts the entered
datetime to `e`, the handler returns with `isValid = true`, `totalTime = 0` and
`epoch = e`, so that the current epoch is `e`, and `propagate` is called exactly
once, at `e`. -/
theorem go_valid_edit_applied (env : Collaborators) (s : Engine)
    (d mo y h mi sec : Int) (e : ℚ)
    (h1 : stoi s.day = Except.ok d) (h2 : stoi s.month = Except.ok mo)
    (h3 : stoi s.year = Except.ok y) (h4 : stoi s.hours = Except.ok h)
    (h5 : stoi s.minutes = Except.ok mi) (h6 : stoi s.seconds = Except.ok sec)
    (h7 : env.dateToDouble ⟨y, mo, d, h, mi, sec⟩ = Except.ok e) :
    ∃ s1, goHandler env s = Outcome.returned s1 [Call.propagate e s.numSats false s.debris] ∧
      s1.isValid = true ∧ s1.totalTime = 0 ∧ s1.epoch = e ∧ currentEpoch s1 = e ∧
      s1.newTime = ⟨y, mo, d, h, mi, sec⟩ := by
  unfold goHandler goTry
  simp [h1, h2, h3, h4, h5, h6, h7, currentEpoch]

/-- A 'Go' edit whose fields parse but whose conversion raises `invalid_argument`
is flagged, and `epoch` is kept, but `totalTime` has already been reset to 0. -/
theorem go_conversion_failure (env : Collaborators) (s : Engine)
    (d mo y h mi sec : Int)
    (h1 : stoi s.day = Except.ok d) (h2 : stoi s.month = Except.ok mo)
    (h3 : stoi s.year = Except.ok y) (h4 : stoi s.hours = Except.ok h)
    (h5 : stoi s.minutes = Except.ok mi) (h6 : stoi s.seconds = Except.ok sec)
    (h7 : env.dateToDouble ⟨y, mo, d, h, mi, sec⟩ = Except.error Exn.invalid_argument) :
    ∃ s1, goHandler env s = Outcome.returned s1 [] ∧
      s1.isValid = false ∧ s1.epoch = s.epoch ∧ s1.totalTime = 0 ∧
      currentEpoch s1 = s.epoch := by
  unfold goHandler goTry
  simp [h1, h2, h3, h4, h5, h6, h7, currentEpoch]

/-- Witness for `go_parse_failure_rejected`: the day field holds `x`. -/
theorem go_parse_failure_rejected_witness :
    goParseError { exampleEngine with day := "x" } = some Exn.invalid_argument ∧
    ∃ s1, goHandler exampleCollaborators { exampleEngine with day := "x" }
        = Outcome.returned s1 [] ∧ s1.isValid = false ∧
      s1.epoch = { exampleEngine with day := "x" }.epoch ∧
      s1.totalTime = { exampleEngine with day := "x" }.totalTime :=
  ⟨rfl, go_parse_failure_rejected exampleCollaborators { exampleEngine with day := "x" } rfl⟩

/-- Witness for `go_valid_edit_applied`: the edit 2 January 2024, 00:00:00. -/
theorem go_valid_edit_applied_witness :
    exampleCollaborators.dateToDouble ⟨2024, 1, 2, 0, 0, 0⟩ = Except.ok 27030 ∧
    ∃ s1, goHandler exampleCollaborators { exampleEngine with day := "2" }
        = Outcome.returned s1 [Call.propagate 27030 1 false []] ∧
      s1.isValid = true ∧ s1.totalTime = 0 ∧ s1.epoch = 27030 ∧ currentEpoch s1 = 27030 ∧
      s1.newTime = ⟨2024, 1, 2, 0, 0, 0⟩ :=
  ⟨by with_unfolding_all rfl,
   go_valid_edit_applied exampleCollaborators { exampleEngine with day := "2" }
    2 1 2024 0 0 0 27030 rfl rfl rfl rfl rfl rfl (by with_unfolding_all rfl)⟩

/-- Claim C1 (evaluation at the failing input).  One simulated day after the
epoch 27029 the current epoch is 27030; the edit 31 February 2024 parses, its
conversion fails, the flag is raised, and the current epoch is 27029 afterwards:
it is not the one before the edit. -/
theorem go_invalid_date_moves_current_epoch :
    currentEpoch { exampleEngine with day := "31", month := "2" } = 27030 ∧
    ∃ s1, goHandler exampleCollaborators { exampleEngine with day := "31", month := "2" }
        = Outcome.returned s1 [] ∧ s1.isValid = false ∧ currentEpoch s1 = 27029 := by
  refine ⟨by norm_num [currentEpoch, exampleEngine], ?_⟩
  obtain ⟨s1, hs, hv, _, _, hc⟩ := go_conversion_failure exampleCollaborators
    { exampleEngine with day := "31", month := "2" } 31 2 2024 0 0 0 rfl rfl rfl rfl rfl rfl rfl
  exact ⟨s1, hs, hv, hc⟩

/-! ## The 'Run' handler -/

/-- Claim C4.  After 'Run' the risk list is the list the selected detector
returned for the snapshot of this pass, whatever the list held before. -/
theorem run_replaces_riskList (env : Collaborators) (s : Engine) :
    (runHandler env s).1.riskList =
      (if s.algorithmSelection = 1 then
        env.find_local_optimum (runDebris env s) s.tolerance s.iterations
       else env.find_risky_debris (runDebris env s) s.tolerance []) ∧
    ∀ prev : List SpaceDebris,
      (runHandler env { s with riskList := prev }).1.riskList = (runHandler env s).1.riskList := by
  constructor
  · unfold runHandler runDebris currentEpoch
    by_cases h : s.algorithmSelection = 1 <;> simp [h]
  · intro prev
    unfold runHandler
    by_cases h : s.algorithmSelection = 1 <;> simp [h]

/-- Claim C5.  'Run' calls `propagate` and then exactly one detector: the
iterative scanner when `algorithmSelection` is 1 and the octree otherwise, on the
same snapshot and tolerance; when the two detectors return the same list for that
snapshot, the risk list, `numRisky`, the risky-points buffer and `isPaused` after
'Run' are the same for any two values of `algorithmSelection`. -/
theorem run_selects_one_detector (env : Collaborators) (s : Engine) (a b : Int) :
    (runHandler env s).2 =
      [Call.propagate (currentEpoch s) s.numSats true [],
       if s.algorithmSelection = 1 then
         Call.find_local_optimum (runDebris env s) s.tolerance s.iterations
       else Call.find_risky_debris (runDebris env s) s.tolerance []] ∧
    (env.find_local_optimum (runDebris env s) s.tolerance s.iterations =
        env.find_risky_debris (runDebris env s) s.tolerance [] →
      (runHandler env { s with algorithmSelection := a }).1.riskList =
        (runHandler env { s with algorithmSelection := b }).1.riskList ∧
      (runHandler env { s with algorithmSelection := a }).1.numRisky =
        (runHandler env { s with algorithmSelection := b }).1.numRisky ∧
      (runHandler env { s with algorithmSelection := a }).1.riskyPoints =
        (runHandler env { s with algorithmSelection := b }).1.riskyPoints ∧
      (runHandler env { s with algorithmSelection := a }).1.isPaused =
        (runHandler env { s with algorithmSelection := b }).1.isPaused) := by
  refine ⟨?_, ?_⟩
  · unfold runHandler runDebris currentEpoch
    by_cases h : s.algorithmSelection = 1 <;> simp [h]
  · intro hsame
    unfold runDebris currentEpoch at hsame
    refine ⟨?_, ?_, ?_, ?_⟩
    all_goals
      unfold runHandler
      by_cases ha : a = 1 <;> by_cases hb : b = 1 <;> simp [ha, hb, hsame]

/-- Witness for `run_selects_one_detector`: the example detectors agree, and the
iterative choice (1) and the octree choice (0) end in the same report. -/
theorem run_selects_one_detector_witness :
    exampleCollaborators.find_local_optimum (runDebris exampleCollaborators exampleEngine)
        exampleEngine.tolerance exampleEngine.iterations =
      exampleCollaborators.find_risky_debris (runDebris exampleCollaborators exampleEngine)
        exampleEngine.tolerance [] ∧
    (runHandler exampleCollaborators { exampleEngine with algorithmSelection := 1 }).1.riskList =
      (runHandler exampleCollaborators { exampleEngine with algorithmSelection := 0 }).1.riskList ∧
    (runHandler exampleCollaborators { exampleEngine with algorithmSelection := 1 }).1.numRisky =
      (runHandler exampleCollaborators { exampleEngine with algorithmSelection := 0 }).1.numRisky ∧
    (runHandler exampleCollaborators { exampleEngine with algorithmSelection := 1 }).1.riskyPoints =
      (runHandler exampleCollaborators { exampleEngine with algorithmSelection := 0 }).1.riskyPoints ∧
    (runHandler exampleCollaborators { exampleEngine with algorithmSelection := 1 }).1.isPaused =
      (runHandler exampleCollaborators { exampleEngine with algorithmSelection := 0 }).1.isPaused :=
  ⟨rfl, (run_selects_one_detector exampleCollaborators exampleEngine 1 0).2 rfl⟩

/-- Claim C7.  Two engine states that agree on `epoch`, `totalTime`, `tolerance`,
`iterations`, `algorithmSelection` and the catalog size `numSats` get the same
risk list, `numRisky` and risky-points buffer from 'Run', whatever their
previous `debris`, `riskList`, `riskyPoints` and `isPaused`. -/
theorem run_depends_on_snapshot_only (env : Collaborators) (s1 s2 : Engine)
    (he : s1.epoch = s2.epoch) (ht : s1.totalTime = s2.totalTime)
    (htol : s1.tolerance = s2.tolerance) (hit : s1.iterations = s2.iterations)
    (halg : s1.algorithmSelection = s2.algorithmSelection) (hn : s1.numSats = s2.numSats) :
    (runHandler env s1).1.riskList = (runHandler env s2).1.riskList ∧
    (runHandler env s1).1.numRisky = (runHandler env s2).1.numRisky ∧
    (runHandler env s1).1.riskyPoints = (runHandler env s2).1.riskyPoints := by
  unfold runHandler
  by_cases h : s2.algorithmSelection = 1 <;> simp [h, he, ht, htol, hit, halg, hn]

/-- Witness for `run_depends_on_snapshot_only`: a state that differs from the
example state in `debris`, `riskList`, `riskyPoints` and `isPaused`. -/
theorem run_depends_on_snapshot_only_witness :
    (runHandler exampleCollaborators exampleEngine).1.riskList =
      (runHandler exampleCollaborators
        { exampleEngine with debris := [⟨1, 2, 0, 5, 5, 5⟩], riskList := [],
                             riskyPoints := none, isPaused := false }).1.riskList ∧
    (runHandler exampleCollaborators exampleEngine).1.numRisky =
      (runHandler exampleCollaborators
        { exampleEngine with debris := [⟨1, 2, 0, 5, 5, 5⟩], riskList := [],
                             riskyPoints := none, isPaused := false }).1.numRisky ∧
    (runHandler exampleCollaborators exampleEngine).1.riskyPoints =
      (runHandler exampleCollaborators
        { exampleEngine with debris := [⟨1, 2, 0, 5, 5, 5⟩], riskList := [],
                             riskyPoints := none, isPaused := false }).1.riskyPoints :=
  run_depends_on_snapshot_only exampleCollaborators exampleEngine
    { exampleEngine with debris := [⟨1, 2, 0, 5, 5, 5⟩], riskList := [],
                         riskyPoints := none, isPaused := false } rfl rfl rfl rfl rfl rfl

/-! ## The current epoch -/

/-- Claim C10.  `preFrame` (when not paused), the date display and the 'Run'
pass all use `epoch + totalTime / 86400`, the current epoch; raising `totalTime`
by `86400 * d` seconds advances it by exactly `d` days. -/
theorem current_epoch_shared (env : Collaborators) (s : Engine) :
    (preFrame env s).2 =
      (if s.isPaused then []
       else [Call.propagate (currentEpoch s) s.numSats false s.debris]) ∧
    tdate env s = env.doubleToDate (currentEpoch s) ∧
    (runHandler env s).2.head? = some (Call.propagate (currentEpoch s) s.numSats true []) ∧
    ∀ d : ℚ, currentEpoch { s with totalTime := s.totalTime + 86400 * d } = currentEpoch s + d := by
  refine ⟨?_, rfl, ?_, ?_⟩
  · unfold preFrame currentEpoch
    cases s.isPaused <;> simp
  · unfold runHandler currentEpoch
    by_cases h : s.algorithmSelection = 1 <;> simp [h]
  · intro d
    simp only [currentEpoch]
    ring

/-! ## Sorting the risk table -/

/-- Claim C6 (evaluation at the failing input).  The risk list holds the ids 3, 4
in that order and the table asks for column 0 in ascending order (direction 1):
after the sort step the ids are 4, 3, which is not non-decreasing. -/
theorem sort_ascending_request_yields_descending :
    exampleEngine.riskList.map (fun r => r.id) = [3, 4] ∧
    (sortRiskTable exampleEngine (some ⟨true, 0, 1⟩)).1.riskList.map (fun r => r.id) = [4, 3] := by
  constructor <;> decide

/-- The model of `std::sort` returns a permutation of its input. -/
theorem stdSort_perm (comp : SpaceDebris → SpaceDebris → Bool) (l : List SpaceDebris) :
    (stdSort comp l).Perm l :=
  List.perm_insertionSort _ l

/-- The model of `std::sort` returns a list sorted by `le` when `le a b` is
`comp b a = false` and `le` is total and transitive. -/
theorem stdSort_sorted (comp : SpaceDebris → SpaceDebris → Bool)
    (le : SpaceDebris → SpaceDebris → Prop)
    (hle : ∀ a b, comp b a = false ↔ le a b)
    (htot : ∀ a b, le a b ∨ le b a) (htr : ∀ a b c, le a b → le b c → le a c)
    (l : List SpaceDebris) : (stdSort comp l).Sorted le := by
  haveI : IsTotal SpaceDebris (fun a b => comp b a = false) :=
    ⟨fun a b => by simpa only [hle] using htot a b⟩
  haveI : IsTrans SpaceDebris (fun a b => comp b a = false) :=
    ⟨fun a b c => by simpa only [hle] using htr a b c⟩
  have h := List.sorted_insertionSort (fun a b => comp b a = false) l
  exact List.Pairwise.imp (fun {a b} hab => (hle a b).1 hab) h

/-- The sort step leaves a permutation of the risk list, whatever the request. -/
theorem sortRiskTable_perm (s : Engine) (specs : Option SortSpecs) :
    (sortRiskTable s specs).1.riskList.Perm s.riskList := by
  unfold sortRiskTable
  cases specs with
  | none => exact List.Perm.refl _
  | some sp =>
    simp only
    split
    · split
      · exact stdSort_perm _ _
      · split
        · exact stdSort_perm _ _
        · split
          · exact stdSort_perm _ _
          · split
            · exact stdSort_perm _ _
            · exact List.Perm.refl _
    · exact List.Perm.refl _

/-- The order the sort step produces for a dirty request: direction 2 gives a
list that is non-decreasing in the key of the column, direction 1 a list that is
non-increasing in it. -/
theorem sortRiskTable_order (s : Engine) :
    (sortRiskTable s (some ⟨true, 0, 2⟩)).1.riskList.Sorted (fun a b => a.id ≤ b.id) ∧
    (sortRiskTable s (some ⟨true, 0, 1⟩)).1.riskList.Sorted (fun a b => b.id ≤ a.id) ∧
    (sortRiskTable s (some ⟨true, 1, 2⟩)).1.riskList.Sorted
      (fun a b => a.riskDistance ≤ b.riskDistance) ∧
    (sortRiskTable s (some ⟨true, 1, 1⟩)).1.riskList.Sorted
      (fun a b => b.riskDistance ≤ a.riskDistance) := by
  refine ⟨?_, ?_, ?_, ?_⟩
  · exact stdSort_sorted compareDebrisIdLess _
      (fun a b => by simp [compareDebrisIdLess])
      (fun a b => le_total a.id b.id) (fun a b c => le_trans) _
  · exact stdSort_sorted compareDebrisIdGreater _
      (fun a b => by simp [compareDebrisIdGreater])
      (fun a b => le_total b.id a.id) (fun a b c h1 h2 => le_trans h2 h1) _
  · exact stdSort_sorted compareDebrisDistanceLess _
      (fun a b => by simp [compareDebrisDistanceLess])
      (fun a b => le_total a.riskDistance b.riskDistance) (fun a b c => le_trans) _
  · exact stdSort_sorted compareDebrisDistanceGreater _
      (fun a b => by simp [compareDebrisDistanceGreater])
      (fun a b => le_total b.riskDistance a.riskDistance) (fun a b c h1 h2 => le_trans h2 h1) _

/-! ## The risk table rows -/

/-- The accesses of the row loop succeed when every row index is below the size. -/
theorem renderRows_ok (riskList : List SpaceDebris) (rows : List Nat)
    (h : ∀ row ∈ rows, row < riskList.length) :
    ∃ rs, renderRows riskList rows = Except.ok rs ∧ rs.map (fun r => r.row) = rows := by
  induction rows with
  | nil => exact ⟨[], rfl, rfl⟩
  | cons row rest ih =>
    have hrow : row < riskList.length := h row (List.mem_cons_self _ _)
    obtain ⟨rs, hrs, hmap⟩ := ih (fun r hr => h r (List.mem_cons_of_mem _ hr))
    refine ⟨⟨row, riskList[row].id, riskList[row].riskyOther, riskList[row].riskDistance⟩ :: rs,
      ?_, ?_⟩
    · simp only [renderRows, List.getElem?_eq_getElem hrow, hrs]
    · simp [hmap]

/-- Claim C15.  For every risk list the row loop renders `min 10 |riskList|`
rows, their indices are `0, 1, ...` in order and each is below `|riskList|`, so
no access `riskList.at(row)` raises `out_of_range`; an empty list renders no row. -/
theorem renderRiskTable_rows (riskList : List SpaceDebris) :
    ∃ rs, renderRiskTable riskList = Except.ok rs ∧
      rs.length = min 10 riskList.length ∧
      rs.map (fun r => r.row) = List.range (min 10 riskList.length) ∧
      (∀ r ∈ rs, r.row < riskList.length) ∧
      (riskList = [] → rs = []) := by
  have hb : rowBound riskList = min 10 riskList.length := by
    unfold rowBound
    split <;> omega
  have hlt : ∀ row ∈ List.range (rowBound riskList), row < riskList.length := by
    intro row hr
    rw [hb, List.mem_range] at hr
    omega
  obtain ⟨rs, hrs, hmap⟩ := renderRows_ok riskList _ hlt
  have hlen : rs.length = min 10 riskList.length := by
    have := congrArg List.length hmap
    simpa [hb] using this
  refine ⟨rs, hrs, hlen, by rw [hmap, hb], ?_, ?_⟩
  · intro r hr
    have : r.row ∈ rs.map (fun r => r.row) := List.mem_map_of_mem _ hr
    rw [hmap] at this
    exact hlt _ this
  · intro he
    subst he
    simpa using hlen

/-! ## Camera bounds -/

/-- Claim C17.  When `-90 ≤ cameraAngleX ≤ 90` and `cameraDistance ≥ 1` hold
before `cursorPosCallback` or `scrollCallback`, they hold after it, for every
cursor position, scroll offset and state of the mouse buttons. -/
theorem camera_bounds_preserved (c : Camera) (x y : ℚ)
    (h1 : -90 ≤ c.cameraAngleX) (h2 : c.cameraAngleX ≤ 90) (h3 : 1 ≤ c.cameraDistance) :
    (-90 ≤ (cursorPosCallback c x y).cameraAngleX ∧
      (cursorPosCallback c x y).cameraAngleX ≤ 90 ∧
      1 ≤ (cursorPosCallback c x y).cameraDistance) ∧
    (-90 ≤ (scrollCallback c x y).cameraAngleX ∧
      (scrollCallback c x y).cameraAngleX ≤ 90 ∧
      1 ≤ (scrollCallback c x y).cameraDistance) := by
  constructor
  · unfold cursorPosCallback
    cases hl : c.mouseLeftDown <;> cases hr : c.mouseRightDown <;>
      simp only [hl, hr, Bool.false_eq_true, if_false, if_true] <;>
      (repeat' split) <;> simp_all
  · unfold scrollCallback
    by_cases hy : y = 0
    · simp only [hy, ne_eq, not_true_eq_false, if_false]
      exact ⟨h1, h2, h3⟩
    · simp only [ne_eq, hy, not_false_eq_true, if_true]
      by_cases hd : c.cameraDistance - y * (1 / 10) < 1
      · simp only [hd, if_true]
        exact ⟨h1, h2, le_refl _⟩
      · simp only [hd, if_false]
        exact ⟨h1, h2, not_lt.mp hd⟩

/-- Witness for `camera_bounds_preserved`: a drag with both buttons down that
would leave both bounds without the clamps. -/
theorem camera_bounds_preserved_witness :
    (-90 ≤ (cursorPosCallback ⟨0, 0, 5, 0, 0, true, true⟩ 10 2000).cameraAngleX ∧
      (cursorPosCallback ⟨0, 0, 5, 0, 0, true, true⟩ 10 2000).cameraAngleX ≤ 90 ∧
      1 ≤ (cursorPosCallback ⟨0, 0, 5, 0, 0, true, true⟩ 10 2000).cameraDistance) ∧
    (-90 ≤ (scrollCallback ⟨0, 0, 5, 0, 0, true, true⟩ 10 2000).cameraAngleX ∧
      (scrollCallback ⟨0, 0, 5, 0, 0, true, true⟩ 10 2000).cameraAngleX ≤ 90 ∧
      1 ≤ (scrollCallback ⟨0, 0, 5, 0, 0, true, true⟩ 10 2000).cameraDistance) :=
  camera_bounds_preserved ⟨0, 0, 5, 0, 0, true, true⟩ 10 2000 (by norm_num) (by norm_num)
    (by norm_num)

/-! ## The risky-points buffer -/

/-- The copy loop after its first `k` rounds: the buffer keeps its size and the
cells of the rows below `k` hold the coordinates of those rows. -/
theorem fillRiskyPoints_loop (narrow : ℚ → ℚ) (l : List SpaceDebris) (k : Nat)
    (hk : k ≤ l.length) :
    ((List.range k).foldl
      (fun buf i =>
        match l[i]? with
        | some r =>
          ((buf.set (i * 3) (narrow r.x)).set (i * 3 + 1) (narrow r.y)).set (i * 3 + 2)
            (narrow r.z)
        | none => buf)
      (List.replicate (l.length * 3) 0)).length = l.length * 3 ∧
    ∀ i (hi : i < l.length), i < k →
      ((List.range k).foldl
        (fun buf i =>
          match l[i]? with
          | some r =>
            ((buf.set (i * 3) (narrow r.x)).set (i * 3 + 1) (narrow r.y)).set (i * 3 + 2)
              (narrow r.z)
          | none => buf)
        (List.replicate (l.length * 3) 0))[i * 3]? = some (narrow l[i].x) ∧
      ((List.range k).foldl
        (fun buf i =>
          match l[i]? with
          | some r =>
            ((buf.set (i * 3) (narrow r.x)).set (i * 3 + 1) (narrow r.y)).set (i * 3 + 2)
              (narrow r.z)
          | none => buf)
        (List.replicate (l.length * 3) 0))[i * 3 + 1]? = some (narrow l[i].y) ∧
      ((List.range k).foldl
        (fun buf i =>
          match l[i]? with
          | some r =>
            ((buf.set (i * 3) (narrow r.x)).set (i * 3 + 1) (narrow r.y)).set (i * 3 + 2)
              (narrow r.z)
          | none => buf)
        (List.replicate (l.length * 3) 0))[i * 3 + 2]? = some (narrow l[i].z) := by
  induction k with
  | zero =>
    refine ⟨by simp, ?_⟩
    intro i _ hik
    omega
  | succ k ih =>
    obtain ⟨hlen, hget⟩ := ih (by omega)
    have hkl : k < l.length := by omega
    rw [List.range_succ, List.foldl_append]
    generalize (List.range k).foldl
      (fun buf i =>
        match l[i]? with
        | some r =>
          ((buf.set (i * 3) (narrow r.x)).set (i * 3 + 1) (narrow r.y)).set (i * 3 + 2)
            (narrow r.z)
        | none => buf)
      (List.replicate (l.length * 3) 0) = b at hlen hget ⊢
    simp only [List.foldl_cons, List.foldl_nil, List.getElem?_eq_getElem hkl]
    refine ⟨by simp [hlen], ?_⟩
    intro i hi hik
    by_cases hik2 : i = k
    · subst hik2
      simp only [List.getElem?_set, List.length_set, hlen]
      refine ⟨?_, ?_, ?_⟩ <;> (split_ifs <;> first | rfl | omega)
    · obtain ⟨g1, g2, g3⟩ := hget i hi (by omega)
      simp only [List.getElem?_set, List.length_set, hlen]
      refine ⟨?_, ?_, ?_⟩ <;> (split_ifs <;> first | assumption | omega)

/-- The buffer built from a risk list has three cells per record, which hold the
coordinates of the records in the order of the list. -/
theorem fillRiskyPoints_spec (narrow : ℚ → ℚ) (l : List SpaceDebris) :
    (fillRiskyPoints narrow l).length = 3 * l.length ∧
    ∀ i (hi : i < l.length),
      (fillRiskyPoints narrow l)[3 * i]? = some (narrow l[i].x) ∧
      (fillRiskyPoints narrow l)[3 * i + 1]? = some (narrow l[i].y) ∧
      (fillRiskyPoints narrow l)[3 * i + 2]? = some (narrow l[i].z) := by
  obtain ⟨hlen, hget⟩ := fillRiskyPoints_loop narrow l l.length (le_refl _)
  unfold fillRiskyPoints
  refine ⟨by rw [hlen]; ring, ?_⟩
  intro i hi
  rw [Nat.mul_comm 3 i]
  exact hget i hi hi

/-- Claim C11.  After 'Run', for either algorithm, `numRisky` is the length of
the risk list, the risky-points buffer holds `3 * numRisky` values, and for each
`i < numRisky` its entries `3i`, `3i+1`, `3i+2` are the `x`, `y`, `z` of
`riskList[i]` (as `GLfloat`), the risk list being the detector's list. -/
theorem run_fills_riskyPoints (env : Collaborators) (s : Engine) :
    (runHandler env s).1.numRisky = (runHandler env s).1.riskList.length ∧
    (runHandler env s).1.riskList =
      (if s.algorithmSelection = 1 then
        env.find_local_optimum (runDebris env s) s.tolerance s.iterations
       else env.find_risky_debris (runDebris env s) s.tolerance []) ∧
    ∃ buf, (runHandler env s).1.riskyPoints = some buf ∧
      (buf.length : Int) = 3 * (runHandler env s).1.numRisky ∧
      ∀ i (hi : i < (runHandler env s).1.riskList.length),
        buf[3 * i]? = some (env.narrow (runHandler env s).1.riskList[i].x) ∧
        buf[3 * i + 1]? = some (env.narrow (runHandler env s).1.riskList[i].y) ∧
        buf[3 * i + 2]? = some (env.narrow (runHandler env s).1.riskList[i].z) := by
  have key : (runHandler env s).1.numRisky = (runHandler env s).1.riskList.length ∧
      (runHandler env s).1.riskyPoints =
        some (fillRiskyPoints env.narrow (runHandler env s).1.riskList) := by
    unfold runHandler
    by_cases h : s.algorithmSelection = 1 <;> simp [h]
  obtain ⟨hn, hp⟩ := key
  obtain ⟨hlen, hget⟩ := fillRiskyPoints_spec env.narrow (runHandler env s).1.riskList
  refine ⟨hn, ?_, _, hp, ?_, hget⟩
  · unfold runHandler runDebris currentEpoch
    by_cases h : s.algorithmSelection = 1 <;> simp [h]
  · rw [hn, hlen]
    push_cast
    ring

/-- Witness for `renderRiskTable_rows`: the empty list renders no row. -/
theorem renderRiskTable_rows_witness :
    ∃ rs, renderRiskTable [] = Except.ok rs ∧ rs = [] :=
  let ⟨rs, h1, _, _, _, h5⟩ := renderRiskTable_rows []
  ⟨rs, h1, h5 rfl⟩

/-- Witness for `run_fills_riskyPoints`: the first record of the example pass. -/
theorem run_fills_riskyPoints_witness :
    ∃ (buf : List ℚ) (h0 : 0 < (runHandler exampleCollaborators exampleEngine).1.riskList.length),
      (runHandler exampleCollaborators exampleEngine).1.riskyPoints = some buf ∧
      buf[3 * 0]? = some (exampleCollaborators.narrow
        ((runHandler exampleCollaborators exampleEngine).1.riskList.get ⟨0, h0⟩).x) :=
  let ⟨buf, hp, _, hget⟩ := (run_fills_riskyPoints exampleCollaborators exampleEngine).2.2
  ⟨buf, by with_unfolding_all decide, hp, (hget 0 (by with_unfolding_all decide)).1⟩

/-! ## Invariants of the reachable states -/

/-- The state in which the `try` block of the 'Go' handler ends, by return or by
exception, has the pause flag, the speed and the risk report of its start. -/
theorem goTry_keeps (env : Collaborators) (s : Engine) :
    ∀ s1, (match goTry env s with
        | Except.ok r => r.1
        | Except.error r => r.2) = s1 →
      s1.isPaused = s.isPaused ∧ s1.simSpeed = s.simSpeed ∧ s1.riskList = s.riskList ∧
      s1.riskyPoints = s.riskyPoints ∧ s1.selectedPoint = s.selectedPoint := by
  intro s1 h
  subst h
  unfold goTry
  cases h1 : stoi s.day with
  | error e => simp [h1]
  | ok v1 =>
  cases h2 : stoi s.month with
  | error e => simp [h1, h2]
  | ok v2 =>
  cases h3 : stoi s.year with
  | error e => simp [h1, h2, h3]
  | ok v3 =>
  cases h4 : stoi s.hours with
  | error e => simp [h1, h2, h3, h4]
  | ok v4 =>
  cases h5 : stoi s.minutes with
  | error e => simp [h1, h2, h3, h4, h5]
  | ok v5 =>
  cases h6 : stoi s.seconds with
  | error e => simp [h1, h2, h3, h4, h5, h6]
  | ok v6 =>
  cases h7 : env.dateToDouble
      { year := v3, month := v2, day := v1, hours := v4, minutes := v5, seconds := v6 } with
  | error e => simp [h1, h2, h3, h4, h5, h6, h7]
  | ok ep => simp [h1, h2, h3, h4, h5, h6, h7]

/-- A 'Go' edit that returns keeps the pause flag, the speed and the risk report. -/
theorem goHandler_keeps (env : Collaborators) (s s1 : Engine) (calls : List Call)
    (h : goHandler env s = Outcome.returned s1 calls) :
    s1.isPaused = s.isPaused ∧ s1.simSpeed = s.simSpeed ∧ s1.riskList = s.riskList ∧
    s1.riskyPoints = s.riskyPoints ∧ s1.selectedPoint = s.selectedPoint := by
  simp only [goHandler] at h
  have hk := goTry_keeps env { s with isValid := true }
  cases hg : goTry env { s with isValid := true } with
  | ok r =>
    obtain ⟨s2, c2⟩ := r
    rw [hg] at h hk
    simp only [Outcome.returned.injEq] at h
    obtain ⟨rfl, _⟩ := h
    exact hk s2 rfl
  | error r =>
    obtain ⟨e, s2⟩ := r
    rw [hg] at h hk
    have h2 := hk s2 rfl
    cases e with
    | invalid_argument =>
      simp only [Outcome.returned.injEq] at h
      obtain ⟨rfl, _⟩ := h
      exact h2
    | out_of_range => simp at h
    | other => simp at h

/-- The time calculations and `preFrame` keep the pause flag, the speed and the
risk report. -/
theorem preFrame_timeStep_keeps (env : Collaborators) (currTime : ℚ) (s : Engine) :
    (preFrame env (timeStep currTime s).1).1.isPaused = s.isPaused ∧
    (preFrame env (timeStep currTime s).1).1.simSpeed = s.simSpeed ∧
    (preFrame env (timeStep currTime s).1).1.riskList = s.riskList ∧
    (preFrame env (timeStep currTime s).1).1.riskyPoints = s.riskyPoints ∧
    (preFrame env (timeStep currTime s).1).1.selectedPoint = s.selectedPoint := by
  unfold preFrame timeStep
  cases h : s.isPaused <;> simp [h]

/-- One iteration of the main loop preserves: the risk report is empty when the
simulation is not paused, and `simSpeed` is at least -1. -/
theorem loopIteration_invariant (env : Collaborators) (currTime : ℚ) (a : UiAction)
    (s s1 : Engine) (calls : List Call)
    (h : loopIteration env currTime a s = Outcome.returned s1 calls)
    (hinv : (s.isPaused = false →
        s.riskList = [] ∧ s.riskyPoints = none ∧ s.selectedPoint = none) ∧ -1 ≤ s.simSpeed) :
    (s1.isPaused = false →
      s1.riskList = [] ∧ s1.riskyPoints = none ∧ s1.selectedPoint = none) ∧ -1 ≤ s1.simSpeed := by
  obtain ⟨k1, k2, k3, k4, k5⟩ := preFrame_timeStep_keeps env currTime s
  simp only [loopIteration] at h
  generalize (preFrame env (timeStep currTime s).1).1 = p at h k1 k2 k3 k4 k5
  generalize (preFrame env (timeStep currTime s).1).2 = c at h
  rw [← k1, ← k2, ← k3, ← k4, ← k5] at hinv
  clear k1 k2 k3 k4 k5
  obtain ⟨hrep, hspeed⟩ := hinv
  cases a with
  | go =>
    simp only [frame] at h
    cases hg : goHandler env p with
    | returned s2 c2 =>
      rw [hg] at h
      simp only [Outcome.returned.injEq] at h
      obtain ⟨rfl, _⟩ := h
      obtain ⟨g1, g2, g3, g4, g5⟩ := goHandler_keeps env p s2 c2 hg
      rw [g1, g2, g3, g4, g5]
      exact ⟨hrep, hspeed⟩
    | uncaught e s2 c2 =>
      rw [hg] at h
      simp at h
  | leftArrow =>
    simp only [frame, Outcome.returned.injEq] at h
    obtain ⟨rfl, _⟩ := h
    unfold leftArrowHandler
    split
    · exact ⟨hrep, by simp only; omega⟩
    · exact ⟨hrep, hspeed⟩
  | rightArrow =>
    simp only [frame, Outcome.returned.injEq] at h
    obtain ⟨rfl, _⟩ := h
    exact ⟨hrep, by simp only [rightArrowHandler]; omega⟩
  | playPause =>
    simp only [frame, Outcome.returned.injEq] at h
    obtain ⟨rfl, _⟩ := h
    unfold playPauseHandler
    cases hp : p.isPaused <;> simp [hspeed]
  | run =>
    simp only [frame, Outcome.returned.injEq] at h
    obtain ⟨rfl, _⟩ := h
    unfold runHandler
    by_cases halg : p.algorithmSelection = 1 <;> simp [halg, hspeed]
  | sort specs =>
    simp only [frame, Outcome.returned.injEq] at h
    obtain ⟨rfl, _⟩ := h
    have hperm := sortRiskTable_perm p (some specs)
    have hk : (sortRiskTable p (some specs)).1.isPaused = p.isPaused ∧
        (sortRiskTable p (some specs)).1.simSpeed = p.simSpeed ∧
        (sortRiskTable p (some specs)).1.riskyPoints = p.riskyPoints ∧
        (sortRiskTable p (some specs)).1.selectedPoint = p.selectedPoint := by
      unfold sortRiskTable
      simp only
      (repeat' split) <;> exact ⟨rfl, rfl, rfl, rfl⟩
    obtain ⟨e1, e2, e3, e4⟩ := hk
    rw [e1, e2, e3, e4]
    refine ⟨fun hp => ?_, hspeed⟩
    obtain ⟨r1, r2, r3⟩ := hrep hp
    rw [r1] at hperm
    exact ⟨List.Perm.eq_nil hperm, r2, r3⟩
  | select row =>
    simp only [frame, Outcome.returned.injEq] at h
    obtain ⟨rfl, _⟩ := h
    unfold selectHandler
    refine ⟨fun hp => ?_, ?_⟩
    · have hp2 : p.isPaused = false := by
        revert hp
        (repeat' split) <;> exact id
      obtain ⟨r1, r2, r3⟩ := hrep hp2
      have hb : rowBound p.riskList = 0 := by simp [rowBound, r1]
      rw [hb, if_neg (Nat.not_lt_zero _)]
      exact ⟨r1, r2, r3⟩
    · (repeat' split) <;> exact hspeed
  | idle =>
    simp only [frame, Outcome.returned.injEq] at h
    obtain ⟨rfl, _⟩ := h
    exact ⟨hrep, hspeed⟩
  | editDate d mo y hh mi sec =>
    simp only [frame, Outcome.returned.injEq] at h
    obtain ⟨rfl, _⟩ := h
    exact ⟨hrep, hspeed⟩
  | selectOctree =>
    simp only [frame, Outcome.returned.injEq] at h
    obtain ⟨rfl, _⟩ := h
    exact ⟨hrep, hspeed⟩
  | selectIterative =>
    simp only [frame, Outcome.returned.injEq] at h
    obtain ⟨rfl, _⟩ := h
    exact ⟨hrep, hspeed⟩
  | setIterations n =>
    simp only [frame, Outcome.returned.injEq] at h
    obtain ⟨rfl, _⟩ := h
    exact ⟨hrep, hspeed⟩
  | setTolerance t =>
    simp only [frame, Outcome.returned.injEq] at h
    obtain ⟨rfl, _⟩ := h
    exact ⟨hrep, hspeed⟩

/-- Every reachable state has an empty risk report when the simulation is not
paused, and `simSpeed` at least -1. -/
theorem reachable_invariant (env : Collaborators) (s : Engine) (h : Reachable env s) :
    (s.isPaused = false →
      s.riskList = [] ∧ s.riskyPoints = none ∧ s.selectedPoint = none) ∧ -1 ≤ s.simSpeed := by
  induction h with
  | start s0 points numSats epoch debris hc =>
    simp [init, initSharedMem]
  | step s s1 currTime a calls _ hstep ih =>
    exact loopIteration_invariant env currTime a s s1 calls hstep ih

/-! ## Claims on the reachable states -/

/-- The example states are reachable. -/
theorem example_states_reachable :
    Reachable exampleCollaborators startEngine ∧
    Reachable exampleCollaborators runningEngine ∧
    Reachable exampleCollaborators slowEngine ∧
    Reachable exampleCollaborators reportEngine ∧
    Reachable exampleCollaborators editedEngine ∧
    Reachable exampleCollaborators staleEngine := by
  have h0 : Reachable exampleCollaborators startEngine :=
    Reachable.start constructedEngine [27029, 0, 0] 1 27029 [] ⟨rfl, rfl, rfl, rfl⟩
  have h1 : Reachable exampleCollaborators reportEngine :=
    Reachable.step startEngine reportEngine 1 UiAction.run _ h0 (by with_unfolding_all rfl)
  have h2 : Reachable exampleCollaborators editedEngine :=
    Reachable.step reportEngine editedEngine 2 (UiAction.editDate "2" "1" "2024" "0" "0" "0") _ h1
      (by with_unfolding_all rfl)
  have h3 : Reachable exampleCollaborators staleEngine :=
    Reachable.step editedEngine staleEngine 3 UiAction.go _ h2 (by with_unfolding_all rfl)
  exact ⟨h0,
    Reachable.step startEngine runningEngine 1 UiAction.playPause _ h0 (by with_unfolding_all rfl),
    Reachable.step startEngine slowEngine 1 UiAction.leftArrow _ h0 (by with_unfolding_all rfl),
    h1, h2, h3⟩

/-- Claim C13.  In every reachable state, when the simulation is not paused the
risk list is empty and `riskyPoints` and `selectedPoint` are null; a non-empty
risk list is present only while `isPaused` holds. -/
theorem report_empty_unless_paused (env : Collaborators) (s : Engine)
    (h : Reachable env s) :
    (s.isPaused = false →
      s.riskList = [] ∧ s.riskyPoints = none ∧ s.selectedPoint = none) ∧
    (s.riskList ≠ [] → s.isPaused = true) := by
  have hinv := (reachable_invariant env s h).1
  refine ⟨hinv, fun hne => ?_⟩
  cases hp : s.isPaused with
  | true => rfl
  | false => exact absurd (hinv hp).1 hne

/-- Witness for `report_empty_unless_paused`: the state after start-up and one
press of 'Play/Pause', which is not paused. -/
theorem report_empty_unless_paused_witness :
    Reachable exampleCollaborators runningEngine ∧ runningEngine.isPaused = false ∧
    ((runningEngine.isPaused = false →
        runningEngine.riskList = [] ∧ runningEngine.riskyPoints = none ∧
        runningEngine.selectedPoint = none) ∧
      (runningEngine.riskList ≠ [] → runningEngine.isPaused = true)) :=
  ⟨example_states_reachable.2.1, rfl,
    report_empty_unless_paused exampleCollaborators runningEngine example_states_reachable.2.1⟩

/-- Claim C16.  `init` leaves `simSpeed = 0`; in every reachable state
`simSpeed ≥ -1` and the multiplier `10 ^ simSpeed` is at least `1/10`; a left
arrow press at `simSpeed = -1` changes nothing, and a right arrow press raises
`simSpeed` by one. -/
theorem simSpeed_at_least_minus_one (env : Collaborators) (s : Engine)
    (h : Reachable env s) :
    (∀ s0 points numSats epoch debris, (init env s0 points numSats epoch debris).simSpeed = 0) ∧
    -1 ≤ s.simSpeed ∧ (1 / 10 : ℚ) ≤ (10 : ℚ) ^ s.simSpeed ∧
    (s.simSpeed = -1 → leftArrowHandler s = s) ∧
    (rightArrowHandler s).simSpeed = s.simSpeed + 1 := by
  have hinv := (reachable_invariant env s h).2
  refine ⟨fun _ _ _ _ _ => rfl, hinv, ?_, ?_, rfl⟩
  · calc (1 / 10 : ℚ) = (10 : ℚ) ^ (-1 : ℤ) := by norm_num
      _ ≤ (10 : ℚ) ^ s.simSpeed := zpow_le_zpow_right₀ (by norm_num) hinv
  · intro h1
    unfold leftArrowHandler
    rw [if_neg (by omega)]

/-- Witness for `simSpeed_at_least_minus_one`: the state after start-up and one
press of the left arrow, where `simSpeed = -1`. -/
theorem simSpeed_at_least_minus_one_witness :
    Reachable exampleCollaborators slowEngine ∧ slowEngine.simSpeed = -1 ∧
    -1 ≤ slowEngine.simSpeed ∧ (1 / 10 : ℚ) ≤ (10 : ℚ) ^ slowEngine.simSpeed ∧
    (slowEngine.simSpeed = -1 → leftArrowHandler slowEngine = slowEngine) ∧
    (rightArrowHandler slowEngine).simSpeed = slowEngine.simSpeed + 1 :=
  ⟨example_states_reachable.2.2.1, rfl,
    (simSpeed_at_least_minus_one exampleCollaborators slowEngine
      example_states_reachable.2.2.1).2⟩

/-- Claim C14 (evaluation at the failing input).  After start-up, 'Run', the
edit of the date to 2 January 2024 and 'Go', the state is reachable, its risk
list is the non-empty list that 'Run' computed at the epoch 27029, and the
current epoch is 27030, for which the detector returns another list. -/
theorem go_leaves_stale_report :
    Reachable exampleCollaborators staleEngine ∧
    staleEngine.riskList ≠ [] ∧
    staleEngine.riskList = (runHandler exampleCollaborators startEngine).1.riskList ∧
    currentEpoch startEngine = 27029 ∧
    currentEpoch staleEngine = 27030 ∧
    staleEngine.riskList ≠ (runHandler exampleCollaborators staleEngine).1.riskList := by
  refine ⟨example_states_reachable.2.2.2.2.2, ?_, ?_, ?_, ?_, ?_⟩
  · with_unfolding_all decide
  · with_unfolding_all rfl
  · with_unfolding_all rfl
  · with_unfolding_all rfl
  · with_unfolding_all decide

/-! ## The simulated-seconds counter over one loop iteration -/

end SpaceDebrisTracker
